import Mathlib

/-!
Verification of the ShortcutPaste Firefox extension core logic.

The TypeScript sources are shallowly embedded: DOM elements become explicit
records, DOM node forests become an inductive tree type, and the browser's
single-threaded async flows become pure functions over explicit outcome
sequences.  Strings are modelled by Lean `String` (a list of characters),
with the JavaScript string primitives used by the source re-implemented
below over the character list.
-/

namespace ShortcutPaste

/-! ### JavaScript string primitives -/

/-- JS `String.prototype.toLowerCase`, character-wise (ASCII case folding,
matching the characters actually appearing in the source's tables). -/
def strLower (s : String) : String := ⟨s.data.map Char.toLower⟩

/-- JS `String.prototype.startsWith`. -/
def strStartsWith (s pre : String) : Bool := pre.data.isPrefixOf s.data

/-- Substring occurrence on character lists: `pat` occurs somewhere in `l`. -/
def hasSubList (pat : List Char) : List Char → Bool
  | [] => pat.isEmpty
  | c :: t => pat.isPrefixOf (c :: t) || hasSubList pat t

/-- JS `String.prototype.includes`. -/
def strIncludes (s pat : String) : Bool := hasSubList pat.data s.data

/-- JS `String.prototype.trim` (whitespace stripped from both ends). -/
def strTrim (s : String) : String :=
  ⟨((s.data.dropWhile Char.isWhitespace).reverse.dropWhile Char.isWhitespace).reverse⟩

/-- JS `value.substring(a, b)`: both indices clamped to the string length,
swapped when out of order. -/
def jsSubstring (s : String) (a b : Nat) : String :=
  let n := s.data.length
  let a' := min a n
  let b' := min b n
  ⟨(s.data.take (max a' b')).drop (min a' b')⟩

/-- JS `value.substring(a)`: take the suffix from index `a` (clamped). -/
def jsSubstringFrom (s : String) (a : Nat) : String :=
  ⟨s.data.drop (min a s.data.length)⟩

/-- JS `s.replace(/\r?\n/g, " ")`: each line break (either `\r\n` or a bare
`\n`) becomes a single space; a bare `\r` is left untouched. -/
def collapseLineBreaks : List Char → List Char
  | [] => []
  | '\r' :: '\n' :: rest => ' ' :: collapseLineBreaks rest
  | '\n' :: rest => ' ' :: collapseLineBreaks rest
  | c :: rest => c :: collapseLineBreaks rest

/-- JS `/\r?\n/.test(s)`: the regex matches exactly when a `\n` occurs. -/
def hasLineBreak (s : String) : Bool := s.data.contains '\n'

/-! ### Content detector

`detectContentType` from the create-item modal
(`CreateClipboardItemModal`, the fullest revision of the detector). -/

inductive ContentType where
  | text | html | image | url
  deriving DecidableEq, Repr

/-- The content detector: classifies a raw string as text/html/url/image,
translated clause by clause from the source. -/
def detectContentType (content : String) : ContentType :=
  let trimmedContent := strTrim content
  if strStartsWith trimmedContent "data:image/" then .image
  else if strStartsWith trimmedContent "http://"
      || strStartsWith trimmedContent "https://"
      || strStartsWith trimmedContent "ftp://" then .url
  else if strIncludes trimmedContent "<"
      && strIncludes trimmedContent ">"
      && (strIncludes trimmedContent "<html"
        || strIncludes trimmedContent "</"
        || strIncludes trimmedContent "<div"
        || strIncludes trimmedContent "<p"
        || strIncludes trimmedContent "<span") then .html
  else .text

/-- Modelled from the spec's words (for comparison with `detectContentType`):
rules in order — `data:image/` prefix gives image; `http://`/`https://`/
`ftp://` prefix which moreover parses as a valid URL (validity is abstracted
as the parameter `validURL`) gives url; containing both `<` and `>` and
either a closing tag `</` or beginning with `<html` or `<!DOCTYPE` gives
html; else text. -/
def detectContentTypeSpec (validURL : String → Bool) (content : String) : ContentType :=
  if strStartsWith content "data:image/" then .image
  else if (strStartsWith content "http://"
      || strStartsWith content "https://"
      || strStartsWith content "ftp://") && validURL content then .url
  else if strIncludes content "<"
      && strIncludes content ">"
      && (strIncludes content "</"
        || strStartsWith content "<html"
        || strStartsWith content "<!DOCTYPE") then .html
  else .text

/-! ### HTML sanitizer (`src/shared/utils/html-sanitizer.ts`)

The browser's `DOMParser` output is abstracted as a forest of `HNode`
trees (element nodes carrying a tag, an attribute list and children, and
text nodes); the sanitizer's own logic (`cleanNode`, `cleanAttributes`,
`sanitizeStyle`, `isSafeHTML`) is translated from the source over this
tree shape. -/

inductive HNode where
  | elem (tag : String) (attrs : List (String × String)) (children : List HNode)
  | text (s : String)

namespace HTMLSanitizer

def ALLOWED_TAGS : List String :=
  ["p", "br", "strong", "b", "em", "i", "u", "span", "div",
   "h1", "h2", "h3", "h4", "h5", "h6",
   "ul", "ol", "li",
   "a", "img",
   "table", "tr", "td", "th", "tbody", "thead",
   "blockquote", "pre", "code"]

/-- `ALLOWED_ATTRIBUTES[tagName] || []`. -/
def ALLOWED_ATTRIBUTES (tag : String) : List String :=
  if tag = "a" then ["href", "title"]
  else if tag = "img" then ["src", "alt", "title", "width", "height"]
  else if tag = "span" then ["style"]
  else if tag = "div" then ["style"]
  else if tag = "p" then ["style"]
  else []

def DANGEROUS_PROTOCOLS : List String :=
  ["javascript:", "vbscript:", "data:", "file:", "ftp:"]

/-- `HTMLSanitizer.sanitizeStyle`: the style value is rejected wholesale
(empty string) when it contains a dangerous CSS fragment. -/
def sanitizeStyle (style : String) : String :=
  if (["expression", "javascript:", "vbscript:", "behavior:", "binding:",
      "@import", "url("] : List String).any
      (fun danger => strIncludes (strLower style) danger) then ""
  else style

/-- The body of `HTMLSanitizer.cleanAttributes`'s loop on one attribute of
an element whose lower-cased tag is `tag`: `none` removes the attribute,
`some` keeps it (possibly with a sanitized style value). -/
def cleanAttr (tag : String) (attr : String × String) :
    Option (String × String) :=
  if strStartsWith (strLower attr.1) "on" then none
  else if !(ALLOWED_ATTRIBUTES tag).contains (strLower attr.1) then none
  else if (strLower attr.1 = "href" ∨ strLower attr.1 = "src")
      ∧ DANGEROUS_PROTOCOLS.any
          (fun protocol => strStartsWith (strTrim (strLower attr.2)) protocol) then none
  else if strLower attr.1 = "style" then
    if sanitizeStyle attr.2 ≠ "" then some (attr.1, sanitizeStyle attr.2) else none
  else some attr

/-- `HTMLSanitizer.cleanAttributes`, the loop over the attribute
snapshot. -/
def cleanAttributes (tag : String) (attrs : List (String × String)) :
    List (String × String) :=
  attrs.filterMap (cleanAttr tag)

mutual

/-- `child.textContent`: concatenation of all descendant text. -/
def textContent : HNode → String
  | .text s => s
  | .elem _ _ children => textContentList children

/-- `textContent` over a child list. -/
def textContentList : List HNode → String
  | [] => ""
  | n :: ns => textContent n ++ textContentList ns

end

/-- `HTMLSanitizer.cleanNode` acting on a child list: a child whose tag is
not allow-listed is replaced by a text node holding its text content; an
allow-listed child has its attributes cleaned and its own children cleaned
recursively; text children are untouched (the source iterates
`node.children`, which holds only element nodes). -/
def cleanNodeList : List HNode → List HNode
  | [] => []
  | .text s :: rest => .text s :: cleanNodeList rest
  | .elem tag attrs kids :: rest =>
    if !ALLOWED_TAGS.contains (strLower tag) then
      .text (textContentList kids) :: cleanNodeList rest
    else
      .elem tag (cleanAttributes (strLower tag) attrs) (cleanNodeList kids)
        :: cleanNodeList rest

/-- `HTMLSanitizer.sanitize`, at the tree level: the parsed document body's
children are cleaned; parsing and re-serialization by the host DOM are
abstracted away (`body` stands for the parse of the input string). -/
def sanitize (body : List HNode) : List HNode := cleanNodeList body

/-- One element is "safe" for `isSafeHTML`: no attribute name starting with
`on` (the source checks the raw name) and no attribute value containing
`javascript:`. -/
def safeAttrs (attrs : List (String × String)) : Bool :=
  attrs.all (fun attr =>
    !strStartsWith attr.1 "on" && !strIncludes attr.2 "javascript:")

/-- `HTMLSanitizer.isSafeHTML`, at the tree level: no `script` element
anywhere, and every element's attributes pass `safeAttrs`. -/
def isSafeHTML : List HNode → Bool
  | [] => true
  | .text _ :: rest => isSafeHTML rest
  | .elem tag attrs kids :: rest =>
    (strLower tag != "script") && safeAttrs attrs
      && isSafeHTML kids && isSafeHTML rest

/-- Safety shape of a sanitized forest, as the spec states it: no `script`
element anywhere and no attribute whose name, case-insensitively, starts
with `on`. -/
def noScriptNoOnAttr : List HNode → Bool
  | [] => true
  | .text _ :: rest => noScriptNoOnAttr rest
  | .elem tag attrs kids :: rest =>
    (strLower tag != "script")
      && attrs.all (fun attr => !strStartsWith (strLower attr.1) "on")
      && noScriptNoOnAttr kids && noScriptNoOnAttr rest

/-- The stronger invariant `cleanNodeList` actually establishes: every
element's lower-cased tag is allow-listed, and every attribute's
lower-cased name both avoids the `on` prefix and is allow-listed for that
tag. -/
def allowedForest : List HNode → Bool
  | [] => true
  | .text _ :: rest => allowedForest rest
  | .elem tag attrs kids :: rest =>
    ALLOWED_TAGS.contains (strLower tag)
      && attrs.all (fun attr =>
          !strStartsWith (strLower attr.1) "on"
            && (ALLOWED_ATTRIBUTES (strLower tag)).contains (strLower attr.1))
      && allowedForest kids && allowedForest rest

/-- No attribute value anywhere in the forest contains `javascript:`
(the condition under which `isSafeHTML` accepts a sanitized forest). -/
def noJsAttrValues : List HNode → Bool
  | [] => true
  | .text _ :: rest => noJsAttrValues rest
  | .elem _ attrs kids :: rest =>
    attrs.all (fun attr => !strIncludes attr.2 "javascript:")
      && noJsAttrValues kids && noJsAttrValues rest

end HTMLSanitizer

/-! ### Paste handler (`PasteHandler.pasteToInput` in
`src/content-scripts/content-main.ts`, current revision)

An `<input>`/`<textarea>` sink is a record of the fields the handler
reads and writes.  `selectionStart`/`selectionEnd` are `Option Nat`
(`null` when the browser reports no selection); the source reads them as
`element.selectionStart || 0`. -/

structure InputEl where
  tagName : String
  disabled : Bool
  readOnly : Bool
  value : String
  selectionStart : Option Nat
  selectionEnd : Option Nat

/-- `x || 0` on a nullable number. -/
def orZero : Option Nat → Nat
  | none => 0
  | some n => n

/-- The content transformation `pasteToInput` applies before splicing:
oversized image data URLs headed for an `<input>` become a placeholder,
then line breaks are collapsed to spaces for `<input>` elements only. -/
def transformContent (el : InputEl) (content : String) (type : String) : String :=
  let insertContent :=
    if type = "image" && strStartsWith content "data:image/"
        && el.tagName = "INPUT" && content.data.length > 2000 then
      "[Image data - too large for text field]"
    else content
  if el.tagName = "INPUT" && hasLineBreak insertContent then
    ⟨collapseLineBreaks insertContent.data⟩
  else insertContent

/-- `PasteHandler.pasteToInput`: fails on disabled/readonly sinks, otherwise
splices the (transformed) content into the value at the selection range and
moves the caret past it.  Returns the source's boolean together with the
updated element. -/
def pasteToInput (el : InputEl) (content : String) (type : String) :
    Bool × InputEl :=
  if el.disabled || el.readOnly then (false, el)
  else
    let start := orZero el.selectionStart
    let stop := orZero el.selectionEnd
    let insertContent := transformContent el content type
    let newValue :=
      jsSubstring el.value 0 start ++ insertContent ++ jsSubstringFrom el.value stop
    let newCursorPos := start + insertContent.data.length
    (true, { el with
      value := newValue
      selectionStart := some newCursorPos
      selectionEnd := some newCursorPos })

/-! ### Messaging retry layer
(`ContentScriptManager.sendMessageToTab` in
`src/background/service-worker.ts`)

One attempt of the loop either returns a response with `success: true`
(`ok`), returns a response without it (`respFail`), or throws — a
messaging error or the 5-second timeout (`err`).  The model records how
many attempts ran and which backoff delays (in milliseconds) were awaited
between attempts. -/

inductive AttemptOutcome where
  | ok | respFail | err
  deriving DecidableEq, Repr

structure SendResult where
  /-- `true` when a successful response was returned to the caller;
  `false` when the call threw (terminal failure). -/
  success : Bool
  /-- number of attempts performed -/
  attempts : Nat
  /-- backoff delays awaited between attempts, in order -/
  waits : List Nat
  deriving DecidableEq, Repr

/-- The body of `sendMessageToTab`'s `for` loop; `fuel` is the number of
loop iterations left (`retries - i`), `i` the current attempt index. -/
def sendAttempts (outcome : Nat → AttemptOutcome) (retries : Nat) :
    Nat → Nat → List Nat → SendResult
  | 0, i, waits => ⟨false, i, waits⟩
  | fuel + 1, i, waits =>
    match outcome i with
    | .ok => ⟨true, i + 1, waits⟩
    | .respFail => sendAttempts outcome retries fuel (i + 1) waits
    | .err =>
      if i = retries - 1 then ⟨false, i + 1, waits⟩
      else sendAttempts outcome retries fuel (i + 1) (waits ++ [300 * (i + 1)])

/-- `ContentScriptManager.sendMessageToTab` with its default `retries = 3`,
as a function of the per-attempt outcomes. -/
def sendMessageToTab (outcome : Nat → AttemptOutcome) (retries : Nat := 3) :
    SendResult :=
  sendAttempts outcome retries retries 0 []

/-! ### Background command flow (`service-worker.ts`) -/

structure ClipboardItem where
  id : String
  content : String
  type : String
  title : String
  timestamp : Nat
  folderId : Option String
  size : Nat
  isFavorite : Bool
  deriving DecidableEq, Repr

structure Tab where
  id : Option Nat
  url : Option String
  deriving DecidableEq, Repr

/-- `ContentScriptManager.isTabSupported` (service-worker revision). -/
def isTabSupported (tab : Option Tab) : Bool :=
  match tab with
  | none => false
  | some t =>
    match t.url with
    | none => false
    | some url =>
      let unsupportedUrls : List String :=
        ["chrome://", "chrome-extension://", "moz-extension://", "about:",
         "edge://", "safari-extension://", "resource://", "chrome-search://",
         "file://", "data:"]
      !unsupportedUrls.any (fun pre => strStartsWith url pre)

/-- Outcome of `handlePasteFavoriteCommand`: the structured result the
source returns, plus whether the send/injection step
(`sendMessageToTab`, which always starts with `injectContentScript`)
was ever entered. -/
structure FavoriteResult where
  success : Bool
  reason : String
  sendAttempted : Bool
  deriving DecidableEq, Repr

/-- `handlePasteFavoriteCommand`: the guard cascade before the messaging
step, translated from the source.  `resolvedTab` is the command's tab or,
when absent, the result of `getActiveTab()`; `sendSucceeds` abstracts the
response of `sendMessageToTab`. -/
def handlePasteFavoriteCommand (items : List ClipboardItem)
    (resolvedTab : Option Tab) (sendSucceeds : Bool) : FavoriteResult :=
  if items.length = 0 then ⟨false, "no_items", false⟩
  else
    match items.find? (fun item => item.isFavorite) with
    | none => ⟨false, "no_favorite", false⟩
    | some favoriteItem =>
      if favoriteItem.content = "" then ⟨false, "invalid_content", false⟩
      else
        match resolvedTab with
        | none => ⟨false, "no_active_tab", false⟩
        | some activeTab =>
          match activeTab.id with
          | none => ⟨false, "invalid_tab", false⟩
          | some _ =>
            if !isTabSupported (some activeTab) then
              ⟨false, "unsupported_tab", false⟩
            else if sendSucceeds then ⟨true, "", true⟩
            else ⟨false, "paste_failed", true⟩

/-! ### Popup favorite toggle (`Popup.tsx`) -/

/-- `handleToggleFavorite`: flips the favorite flag of the item with the
given id and clears it on every other item. -/
def handleToggleFavorite (items : List ClipboardItem) (id : String) :
    List ClipboardItem :=
  items.map (fun item =>
    { item with isFavorite := if item.id = id then !item.isFavorite else false })

/-! ### Clipboard storage (`clipboard-storage.ts`) -/

/-- The pure core of `ClipboardStorage.addClipboardItem`: the freshly
created item (id and timestamp generated impurely by the source) is
prepended and only the first 999 previously stored items are kept. -/
def addClipboardItem (newItem : ClipboardItem) (items : List ClipboardItem) :
    List ClipboardItem :=
  newItem :: items.take 999

/-! ## Theorems -/

/-! ### Generic lemmas about the string primitives -/

lemma data_append (x y : String) : (x ++ y).data = x.data ++ y.data := rfl

lemma strLength_data (s : String) : s.length = s.data.length := rfl

lemma jsSubstring_zero (s : String) (a : Nat) (h : a ≤ s.data.length) :
    jsSubstring s 0 a = ⟨s.data.take a⟩ := by
  have h2 : min a s.length = a := by rw [strLength_data]; omega
  simp [jsSubstring, h2]

lemma jsSubstringFrom_eq (s : String) (a : Nat) (h : a ≤ s.data.length) :
    jsSubstringFrom s a = ⟨s.data.drop a⟩ := by
  have h2 : min a s.length = a := by rw [strLength_data]; omega
  simp [jsSubstringFrom, h2]

/-! ### C10: storage cap in `addClipboardItem` -/

/-- C10: `addClipboardItem` saves a collection whose first element is the
newly created item and whose length never exceeds 1000: the new item is
prepended and only the first 999 previously stored items are kept, so any
older items beyond that bound are dropped. -/
theorem addClipboardItem_cap (newItem : ClipboardItem) (items : List ClipboardItem) :
    (addClipboardItem newItem items).head? = some newItem
    ∧ (addClipboardItem newItem items).length ≤ 1000
    ∧ (addClipboardItem newItem items).tail = items.take 999 := by
  refine ⟨rfl, ?_, rfl⟩
  simp only [addClipboardItem, List.length_cons, List.length_take]
  omega

/-! ### C9: the favorite toggle preserves the at-most-one-favorite
invariant -/

lemma toggle_countP_zero (id : String) (l : List ClipboardItem)
    (hid : ∀ x ∈ l, x.id ≠ id) :
    (handleToggleFavorite l id).countP (fun item => item.isFavorite) = 0 := by
  rw [List.countP_eq_zero]
  intro b hb
  simp only [handleToggleFavorite, List.mem_map] at hb
  obtain ⟨x, hx, rfl⟩ := hb
  simp [hid x hx]

lemma toggle_countP_le_one (id : String) :
    ∀ items : List ClipboardItem, (items.map (fun item => item.id)).Nodup →
      (handleToggleFavorite items id).countP (fun item => item.isFavorite) ≤ 1
  | [], _ => by simp [handleToggleFavorite]
  | a :: l, hnd => by
    simp only [List.map_cons, List.nodup_cons, List.mem_map, not_exists, not_and] at hnd
    obtain ⟨hid, hnd'⟩ := hnd
    have step : handleToggleFavorite (a :: l) id =
        { a with isFavorite := if a.id = id then !a.isFavorite else false }
          :: handleToggleFavorite l id := rfl
    rw [step, List.countP_cons]
    by_cases h : a.id = id
    · have hz := toggle_countP_zero id l (fun x hx hxe => hid x hx (hxe.trans h.symm))
      rw [hz]
      by_cases hf : a.isFavorite <;> simp [h, hf]
    · have := toggle_countP_le_one id l hnd'
      simpa [h] using this

lemma toggle_only_id (items : List ClipboardItem) (id : String) :
    ∀ item ∈ handleToggleFavorite items id, item.isFavorite = true → item.id = id := by
  intro item hmem hfav
  simp only [handleToggleFavorite, List.mem_map] at hmem
  obtain ⟨a, _, rfl⟩ := hmem
  by_cases h : a.id = id
  · simpa using h
  · simp [h] at hfav

/-- C9: after `handleToggleFavorite id`, at most one item is favorite, and
any favorite item is the toggled one. -/
lemma toggle_countP_exact (id : String) :
    ∀ items : List ClipboardItem, (items.map (fun item => item.id)).Nodup →
      ∀ item ∈ items, item.id = id →
        (handleToggleFavorite items id).countP (fun it => it.isFavorite)
          = if item.isFavorite then 0 else 1
  | [], _ => by simp
  | a :: l, hnd => by
    intro item hmem hid'
    simp only [List.map_cons, List.nodup_cons, List.mem_map, not_exists, not_and] at hnd
    obtain ⟨hid, hnd'⟩ := hnd
    have step : handleToggleFavorite (a :: l) id =
        { a with isFavorite := if a.id = id then !a.isFavorite else false }
          :: handleToggleFavorite l id := rfl
    rw [step, List.countP_cons]
    rcases List.mem_cons.mp hmem with rfl | hmem
    · have hz := toggle_countP_zero id l
        (fun x hx hxe => hid x hx (hxe.trans hid'.symm))
      rw [hz]
      by_cases hf : item.isFavorite <;> simp [hid', hf]
    · have hane : a.id ≠ id := fun he => hid item hmem (hid'.trans he.symm)
      have := toggle_countP_exact id l hnd' item hmem hid'
      simpa [hane] using this

/-- C9: after `handleToggleFavorite id`, at most one item is favorite, any
favorite item is the toggled one, and the favorite count is exactly one
when the toggled item was not previously favorite and zero when it was. -/
theorem handleToggleFavorite_invariant (items : List ClipboardItem) (id : String)
    (hnd : (items.map (fun item => item.id)).Nodup) :
    (handleToggleFavorite items id).countP (fun item => item.isFavorite) ≤ 1
    ∧ (∀ item ∈ handleToggleFavorite items id, item.isFavorite = true → item.id = id)
    ∧ ∀ item ∈ items, item.id = id →
        (handleToggleFavorite items id).countP (fun it => it.isFavorite)
          = if item.isFavorite then 0 else 1 :=
  ⟨toggle_countP_le_one id items hnd, toggle_only_id items id,
   toggle_countP_exact id items hnd⟩

/-- Witness for C9 at a concrete two-item collection. -/
theorem handleToggleFavorite_invariant_witness :
    (([⟨"a", "x", "text", "t", 0, none, 1, false⟩,
       ⟨"b", "y", "text", "u", 0, none, 1, true⟩] : List ClipboardItem).map
        (fun item => item.id)).Nodup
    ∧ (handleToggleFavorite
        [⟨"a", "x", "text", "t", 0, none, 1, false⟩,
         ⟨"b", "y", "text", "u", 0, none, 1, true⟩] "a").countP
        (fun item => item.isFavorite) ≤ 1
    ∧ (handleToggleFavorite
        [⟨"a", "x", "text", "t", 0, none, 1, false⟩,
         ⟨"b", "y", "text", "u", 0, none, 1, true⟩] "a").countP
        (fun it => it.isFavorite) = 1 :=
  ⟨by decide,
   (handleToggleFavorite_invariant
     [⟨"a", "x", "text", "t", 0, none, 1, false⟩,
      ⟨"b", "y", "text", "u", 0, none, 1, true⟩] "a" (by decide)).1,
   (handleToggleFavorite_invariant
     [⟨"a", "x", "text", "t", 0, none, 1, false⟩,
      ⟨"b", "y", "text", "u", 0, none, 1, true⟩] "a" (by decide)).2.2
     ⟨"a", "x", "text", "t", 0, none, 1, false⟩ (by decide) rfl⟩

/-! ### C8: privileged tabs are rejected before any injection -/

/-- C8: when the paste-favorite request has reached a concrete target tab
(a favorite item with non-empty content exists and the tab has an id)
whose URL carries a privileged or non-content scheme, the handler returns
the distinct reason code `unsupported_tab` and the send/injection step is
never entered. -/
theorem pasteFavorite_unsupported_tab (items : List ClipboardItem) (tab : Tab)
    (sendSucceeds : Bool) (favoriteItem : ClipboardItem) (url : String) (n : Nat)
    (hfind : items.find? (fun item => item.isFavorite) = some favoriteItem)
    (hcontent : favoriteItem.content ≠ "")
    (hid : tab.id = some n) (hurl : tab.url = some url)
    (hpriv : (["chrome://", "chrome-extension://", "moz-extension://", "about:",
        "edge://", "safari-extension://", "resource://", "chrome-search://",
        "file://", "data:"] : List String).any
          (fun pre => strStartsWith url pre) = true) :
    handlePasteFavoriteCommand items (some tab) sendSucceeds
      = ⟨false, "unsupported_tab", false⟩ := by
  have hne : items.length ≠ 0 := by
    intro hlen
    rw [List.length_eq_zero] at hlen
    subst hlen
    simp [List.find?] at hfind
  have hsup : isTabSupported (some tab) = false := by
    simp [isTabSupported, hurl, hpriv]
  simp [handlePasteFavoriteCommand, hne, hfind, hcontent, hid, hsup]

/-- Witness for C8: a favorite item targeted at a `file://` page. -/
theorem pasteFavorite_unsupported_tab_witness :
    handlePasteFavoriteCommand
        [⟨"a", "hello", "text", "t", 0, none, 5, true⟩]
        (some ⟨some 7, some "file:///tmp/x.html"⟩) true
      = ⟨false, "unsupported_tab", false⟩ :=
  pasteFavorite_unsupported_tab
    [⟨"a", "hello", "text", "t", 0, none, 5, true⟩]
    ⟨some 7, some "file:///tmp/x.html"⟩ true
    ⟨"a", "hello", "text", "t", 0, none, 5, true⟩ "file:///tmp/x.html" 7
    (by decide) (by decide) rfl rfl (by decide)

/-! ### C3: retry budget and backoff of `sendMessageToTab` -/

/-- Counterexample to C3 as stated: when every attempt fails with a
`success:false` response, `sendMessageToTab` does make exactly 3 attempts
and throws, but it waits no backoff at all between attempts — not the
claimed 300ms-times-attempt-number waits. -/
theorem sendMessageToTab_no_backoff_on_respFail :
    (sendMessageToTab (fun _ => AttemptOutcome.respFail)).attempts = 3
    ∧ (sendMessageToTab (fun _ => AttemptOutcome.respFail)).success = false
    ∧ (sendMessageToTab (fun _ => AttemptOutcome.respFail)).waits = []
    ∧ (sendMessageToTab (fun _ => AttemptOutcome.respFail)).waits
        ≠ [300 * 1, 300 * 2] := by
  refine ⟨rfl, rfl, rfl, by decide⟩

/-- C3, amended: with all attempts failing, the initiator makes exactly 3
attempts and then throws; the 300ms-times-attempt-number backoff is waited
only after an attempt that fails by a thrown error or timeout (and not
after the last), while a `success:false` response retries immediately with
no backoff. -/
theorem sendMessageToTab_retry_budget (outcome : Nat → AttemptOutcome)
    (hfail : ∀ i, outcome i ≠ AttemptOutcome.ok) :
    (sendMessageToTab outcome).success = false
    ∧ (sendMessageToTab outcome).attempts = 3
    ∧ (sendMessageToTab outcome).waits
        = ((List.range 2).filter (fun i => outcome i = AttemptOutcome.err)).map
            (fun i => 300 * (i + 1)) := by
  have h0 := hfail 0
  have h1 := hfail 1
  have h2 := hfail 2
  cases e0 : outcome 0 with
  | ok => exact absurd e0 h0
  | respFail =>
    cases e1 : outcome 1 with
    | ok => exact absurd e1 h1
    | respFail =>
      cases e2 : outcome 2 with
      | ok => exact absurd e2 h2
      | respFail =>
        refine ⟨?_, ?_, ?_⟩ <;>
          simp [sendMessageToTab, sendAttempts, e0, e1, e2, List.range_succ]
      | err =>
        refine ⟨?_, ?_, ?_⟩ <;>
          simp [sendMessageToTab, sendAttempts, e0, e1, e2, List.range_succ]
    | err =>
      cases e2 : outcome 2 with
      | ok => exact absurd e2 h2
      | respFail =>
        refine ⟨?_, ?_, ?_⟩ <;>
          simp [sendMessageToTab, sendAttempts, e0, e1, e2, List.range_succ]
      | err =>
        refine ⟨?_, ?_, ?_⟩ <;>
          simp [sendMessageToTab, sendAttempts, e0, e1, e2, List.range_succ]
  | err =>
    cases e1 : outcome 1 with
    | ok => exact absurd e1 h1
    | respFail =>
      cases e2 : outcome 2 with
      | ok => exact absurd e2 h2
      | respFail =>
        refine ⟨?_, ?_, ?_⟩ <;>
          simp [sendMessageToTab, sendAttempts, e0, e1, e2, List.range_succ]
      | err =>
        refine ⟨?_, ?_, ?_⟩ <;>
          simp [sendMessageToTab, sendAttempts, e0, e1, e2, List.range_succ]
    | err =>
      cases e2 : outcome 2 with
      | ok => exact absurd e2 h2
      | respFail =>
        refine ⟨?_, ?_, ?_⟩ <;>
          simp [sendMessageToTab, sendAttempts, e0, e1, e2, List.range_succ]
      | err =>
        refine ⟨?_, ?_, ?_⟩ <;>
          simp [sendMessageToTab, sendAttempts, e0, e1, e2, List.range_succ]

/-- Witness for the amended C3: all attempts throwing gives 3 attempts,
a terminal throw, and backoffs 300ms and 600ms. -/
theorem sendMessageToTab_retry_budget_witness :
    (sendMessageToTab (fun _ => AttemptOutcome.err)).success = false
    ∧ (sendMessageToTab (fun _ => AttemptOutcome.err)).attempts = 3
    ∧ (sendMessageToTab (fun _ => AttemptOutcome.err)).waits = [300, 600] := by
  have h := sendMessageToTab_retry_budget (fun _ => AttemptOutcome.err)
    (fun i hi => AttemptOutcome.noConfusion hi)
  refine ⟨h.1, h.2.1, ?_⟩
  rw [h.2.2]
  decide

/-! ### C1 and C2: `pasteToInput` splice, caret and line-break policy -/

lemma collapse_no_newline : ∀ l, '\n' ∉ collapseLineBreaks l := by
  intro l
  induction l using collapseLineBreaks.induct with
  | case1 => simp [collapseLineBreaks]
  | case2 rest ih => simp [collapseLineBreaks, ih]
  | case3 rest ih => simp [collapseLineBreaks, ih]
  | case4 c rest h1 h2 ih =>
    rw [collapseLineBreaks.eq_def]
    split
    · simp [ih]
    · simp_all
    · simp_all
    · simp_all [ih, eq_comm]

lemma transform_textarea (el : InputEl) (content type : String)
    (h : el.tagName = "TEXTAREA") :
    transformContent el content type = content := by
  simp [transformContent, h]

lemma transform_input_no_newline (el : InputEl) (content type : String)
    (hi : el.tagName = "INPUT") (hn : '\n' ∈ content.data) :
    '\n' ∉ (transformContent el content type).data := by
  unfold transformContent
  split
  · dsimp only
    split
    · exact collapse_no_newline _
    · decide
  · dsimp only
    split
    · exact collapse_no_newline _
    · rename_i hcond
      exfalso
      apply hcond
      simp [hi, hasLineBreak, hn]

lemma transform_input_collapse (el : InputEl) (content type : String)
    (hi : el.tagName = "INPUT") (hn : '\n' ∈ content.data)
    (himg : ¬(type = "image" ∧ strStartsWith content "data:image/" = true
        ∧ content.data.length > 2000)) :
    transformContent el content type = ⟨collapseLineBreaks content.data⟩ := by
  unfold transformContent
  split
  · rename_i hcond
    exfalso
    simp only [Bool.and_eq_true, decide_eq_true_eq] at hcond
    exact himg ⟨hcond.1.1.1, hcond.1.1.2, hcond.2⟩
  · dsimp only
    have hc : (decide (el.tagName = "INPUT") && hasLineBreak content) = true := by
      simp [hi, hasLineBreak, hn]
    rw [if_pos hc]

lemma pasteToInput_unfold (el : InputEl) (c t : String)
    (hd : el.disabled = false) (hr : el.readOnly = false) :
    pasteToInput el c t = (true, { el with
      value := jsSubstring el.value 0 (orZero el.selectionStart)
                 ++ transformContent el c t
                 ++ jsSubstringFrom el.value (orZero el.selectionEnd),
      selectionStart :=
        some (orZero el.selectionStart + (transformContent el c t).data.length),
      selectionEnd :=
        some (orZero el.selectionStart + (transformContent el c t).data.length) }) := by
  simp [pasteToInput, hd, hr]

lemma mem_jsSubstring {c : Char} {s : String} {a b : Nat}
    (h : c ∈ (jsSubstring s a b).data) : c ∈ s.data := by
  simp only [jsSubstring] at h
  exact List.mem_of_mem_take (List.mem_of_mem_drop h)

lemma mem_jsSubstringFrom {c : Char} {s : String} {a : Nat}
    (h : c ∈ (jsSubstringFrom s a).data) : c ∈ s.data := by
  simp only [jsSubstringFrom] at h
  exact List.mem_of_mem_drop h

/-- C1: content containing line breaks pasted via `pasteToInput` into a
non-disabled, non-readonly `<input>` yields a stored value with zero `\n`
characters (each break collapsed to one space, placeholder substitution
aside), while the same content pasted into a `<textarea>` is spliced in
verbatim, preserving the exact `\n` count. -/
theorem pasteToInput_line_break_policy (el : InputEl) (s type : String)
    (hd : el.disabled = false) (hr : el.readOnly = false)
    (hn : '\n' ∈ s.data) :
    (el.tagName = "INPUT" → '\n' ∉ el.value.data →
      (pasteToInput el s type).1 = true
      ∧ '\n' ∉ (pasteToInput el s type).2.value.data
      ∧ (¬(type = "image" ∧ strStartsWith s "data:image/" = true
            ∧ s.data.length > 2000) →
          (pasteToInput el s type).2.value
            = jsSubstring el.value 0 (orZero el.selectionStart)
                ++ ⟨collapseLineBreaks s.data⟩
                ++ jsSubstringFrom el.value (orZero el.selectionEnd)))
    ∧ (el.tagName = "TEXTAREA" →
      (pasteToInput el s type).1 = true
      ∧ (pasteToInput el s type).2.value
          = jsSubstring el.value 0 (orZero el.selectionStart) ++ s
              ++ jsSubstringFrom el.value (orZero el.selectionEnd)
      ∧ (pasteToInput el s type).2.value.data.count '\n'
          = (jsSubstring el.value 0 (orZero el.selectionStart)).data.count '\n'
            + s.data.count '\n'
            + (jsSubstringFrom el.value (orZero el.selectionEnd)).data.count '\n') := by
  constructor
  · intro hi hv
    rw [pasteToInput_unfold el s type hd hr]
    refine ⟨rfl, ?_, ?_⟩
    · intro hmem
      simp only [data_append, List.mem_append] at hmem
      rcases hmem with (hmem | hmem) | hmem
      · exact absurd (mem_jsSubstring hmem) hv
      · exact absurd hmem (transform_input_no_newline el s type hi hn)
      · exact absurd (mem_jsSubstringFrom hmem) hv
    · intro himg
      rw [transform_input_collapse el s type hi hn himg]
  · intro ht
    rw [pasteToInput_unfold el s type hd hr, transform_textarea el s type ht]
    refine ⟨rfl, rfl, ?_⟩
    simp [data_append, List.count_append]
    omega

/-- Witness for C1: collapsing inside a concrete `<input>` value. -/
theorem pasteToInput_line_break_policy_witness :
    (pasteToInput ⟨"INPUT", false, false, "ab", some 1, some 1⟩ "x\ny" "text").1 = true
    ∧ '\n' ∉ (pasteToInput ⟨"INPUT", false, false, "ab", some 1, some 1⟩
        "x\ny" "text").2.value.data
    ∧ (pasteToInput ⟨"INPUT", false, false, "ab", some 1, some 1⟩
        "x\ny" "text").2.value = "ax yb" := by
  have h := (pasteToInput_line_break_policy
    ⟨"INPUT", false, false, "ab", some 1, some 1⟩ "x\ny" "text"
    rfl rfl (by decide)).1 rfl (by decide)
  refine ⟨h.1, h.2.1, ?_⟩
  rw [h.2.2 (by decide)]
  decide

/-- C2: on a writable sink, `pasteToInput` splices the insertable content
into the value at the selection range `[start, stop)`, puts both selection
ends at `start + len(inserted)`, and returns `true`; in particular an empty
`<textarea>` with caret 0 receiving `line1\nline2` as text ends with that
exact value and caret 11. -/
theorem pasteToInput_splice (el : InputEl) (content type : String) (a b : Nat)
    (hd : el.disabled = false) (hr : el.readOnly = false)
    (hs : el.selectionStart = some a) (he : el.selectionEnd = some b)
    (hab : a ≤ b) (hbl : b ≤ el.value.data.length) :
    (pasteToInput el content type).1 = true
    ∧ (pasteToInput el content type).2.value.data
        = el.value.data.take a ++ (transformContent el content type).data
            ++ el.value.data.drop b
    ∧ (pasteToInput el content type).2.selectionStart
        = some (a + (transformContent el content type).data.length)
    ∧ (pasteToInput el content type).2.selectionEnd
        = some (a + (transformContent el content type).data.length)
    ∧ pasteToInput ⟨"TEXTAREA", false, false, "", some 0, some 0⟩ "line1\nline2" "text"
        = (true, ⟨"TEXTAREA", false, false, "line1\nline2", some 11, some 11⟩) := by
  have ha : a ≤ el.value.data.length := le_trans hab hbl
  rw [pasteToInput_unfold el content type hd hr]
  refine ⟨rfl, ?_, ?_, ?_, by rfl⟩
  · simp only [hs, he, orZero, jsSubstring_zero el.value a ha,
      jsSubstringFrom_eq el.value b hbl, data_append]
  · simp [hs, orZero]
  · simp [hs, orZero]

/-- Witness for C2 at the spec's end-to-end textarea scenario. -/
theorem pasteToInput_splice_witness :
    (pasteToInput ⟨"TEXTAREA", false, false, "", some 0, some 0⟩
        "line1\nline2" "text").1 = true
    ∧ (pasteToInput ⟨"TEXTAREA", false, false, "", some 0, some 0⟩
        "line1\nline2" "text").2.value.data = ("line1\nline2" : String).data
    ∧ (pasteToInput ⟨"TEXTAREA", false, false, "", some 0, some 0⟩
        "line1\nline2" "text").2.selectionStart = some 11 := by
  have h := pasteToInput_splice ⟨"TEXTAREA", false, false, "", some 0, some 0⟩
    "line1\nline2" "text" 0 0 rfl rfl rfl rfl (by decide) (by decide)
  refine ⟨h.1, ?_, ?_⟩
  · rw [h.2.1]; decide
  · rw [h.2.2.1]; decide

/-! ### C4: the content detector's rules -/

/-- Counterexample to C4 as stated: `"<div>"` contains `<` and `>` but no
closing tag and does not begin with `<html` or `<!DOCTYPE`, so under the
claimed rules it would be text (whatever URL validity means), yet the
detector classifies it as html (its html rule also accepts a bare `<div`,
`<p` or `<span` and never looks at `<!DOCTYPE`). -/
theorem detectContentType_div_counterexample :
    detectContentType "<div>" = ContentType.html
    ∧ detectContentTypeSpec (fun _ => true) "<div>" = ContentType.text
    ∧ detectContentTypeSpec (fun _ => false) "<div>" = ContentType.text := by
  refine ⟨by decide, by decide, by decide⟩

/-- C4, amended: the detector trims its input and applies, in order:
`data:image/` prefix gives image; `http://`/`https://`/`ftp://` prefix
gives url with no URL-parse validation; containing `<` and `>` together
with one of `<html`, `</`, `<div`, `<p`, `<span` gives html; otherwise
text.  The four example classifications of the spec hold. -/
theorem detectContentType_rules :
    (detectContentType "https://a.b/c" = ContentType.url
    ∧ detectContentType "data:image/png;base64,AAAA" = ContentType.image
    ∧ detectContentType "<div>hi</div>" = ContentType.html
    ∧ detectContentType "plain text" = ContentType.text)
    ∧ ∀ s : String,
      (strStartsWith (strTrim s) "data:image/" = true →
        detectContentType s = ContentType.image)
      ∧ (strStartsWith (strTrim s) "data:image/" = false →
        (strStartsWith (strTrim s) "http://" || strStartsWith (strTrim s) "https://"
          || strStartsWith (strTrim s) "ftp://") = true →
        detectContentType s = ContentType.url)
      ∧ (strStartsWith (strTrim s) "data:image/" = false →
        (strStartsWith (strTrim s) "http://" || strStartsWith (strTrim s) "https://"
          || strStartsWith (strTrim s) "ftp://") = false →
        (strIncludes (strTrim s) "<" && strIncludes (strTrim s) ">"
          && (strIncludes (strTrim s) "<html" || strIncludes (strTrim s) "</"
            || strIncludes (strTrim s) "<div" || strIncludes (strTrim s) "<p"
            || strIncludes (strTrim s) "<span")) = true →
        detectContentType s = ContentType.html)
      ∧ (strStartsWith (strTrim s) "data:image/" = false →
        (strStartsWith (strTrim s) "http://" || strStartsWith (strTrim s) "https://"
          || strStartsWith (strTrim s) "ftp://") = false →
        (strIncludes (strTrim s) "<" && strIncludes (strTrim s) ">"
          && (strIncludes (strTrim s) "<html" || strIncludes (strTrim s) "</"
            || strIncludes (strTrim s) "<div" || strIncludes (strTrim s) "<p"
            || strIncludes (strTrim s) "<span")) = false →
        detectContentType s = ContentType.text) := by
  refine ⟨⟨by decide, by decide, by decide, by decide⟩, ?_⟩
  intro s
  refine ⟨?_, ?_, ?_, ?_⟩
  · intro h1
    simp [detectContentType, h1]
  · intro h1 h2
    simp [detectContentType, h1, h2]
  · intro h1 h2 h3
    simp [detectContentType, h1, h2, h3]
  · intro h1 h2 h3
    simp [detectContentType, h1, h2, h3]

/-- Witness for the amended C4: the text rule at `"plain text"` and the
url rule at the bare scheme `"http://"` (classified url with no URL-parse
validation). -/
theorem detectContentType_rules_witness :
    detectContentType "plain text" = ContentType.text
    ∧ detectContentType "http://" = ContentType.url :=
  ⟨(detectContentType_rules.2 "plain text").2.2.2 (by decide) (by decide) (by decide),
   (detectContentType_rules.2 "http://").2.1 (by decide) (by decide)⟩

/-! ### C5, C6, C7: the HTML sanitizer -/

namespace HTMLSanitizer

lemma sanitizeStyle_cases (v : String) :
    sanitizeStyle v = "" ∨ sanitizeStyle v = v := by
  unfold sanitizeStyle
  split
  · exact Or.inl rfl
  · exact Or.inr rfl

/-- Every attribute kept by `cleanAttr` has a lower-cased name that avoids
the `on` prefix and is allow-listed for the tag. -/
lemma cleanAttr_kept {tag : String} {attr p : String × String}
    (h : cleanAttr tag attr = some p) :
    p.1 = attr.1
    ∧ strStartsWith (strLower p.1) "on" = false
    ∧ (ALLOWED_ATTRIBUTES tag).contains (strLower p.1) = true := by
  unfold cleanAttr at h
  split at h
  · exact absurd h (by simp)
  · rename_i hon
    split at h
    · exact absurd h (by simp)
    · rename_i hallow
      split at h
      · exact absurd h (by simp)
      · split at h
        · split at h
          · obtain rfl : (attr.1, sanitizeStyle attr.2) = p := by simpa using h
            exact ⟨rfl, by simpa using hon, by simpa using hallow⟩
          · exact absurd h (by simp)
        · obtain rfl : attr = p := by simpa using h
          exact ⟨rfl, by simpa using hon, by simpa using hallow⟩

/-- A kept attribute is kept unchanged when cleaned again. -/
lemma cleanAttr_idem {tag : String} {attr p : String × String}
    (h : cleanAttr tag attr = some p) :
    cleanAttr tag p = some p := by
  unfold cleanAttr at h
  split at h
  · exact absurd h (by simp)
  · rename_i hon
    split at h
    · exact absurd h (by simp)
    · rename_i hallow
      split at h
      · exact absurd h (by simp)
      · rename_i hproto
        split at h
        · rename_i hstyle
          split at h
          · rename_i hne
            obtain rfl : (attr.1, sanitizeStyle attr.2) = p := by simpa using h
            have hv : sanitizeStyle attr.2 = attr.2 := by
              rcases sanitizeStyle_cases attr.2 with hc | hc
              · exact absurd hc hne
              · exact hc
            unfold cleanAttr
            rw [if_neg hon, if_neg hallow, if_neg ?_, if_pos hstyle]
            · dsimp only
              rw [hv, if_pos (by simpa [hv] using hne)]
              simp [hv]
            · rintro ⟨hhs, -⟩
              rcases hhs with hh | hh <;> rw [hstyle] at hh <;> simp at hh
          · exact absurd h (by simp)
        · rename_i hstyle
          obtain rfl : attr = p := by simpa using h
          unfold cleanAttr
          rw [if_neg hon, if_neg hallow, if_neg hproto, if_neg hstyle]

lemma filterMap_idem_of_step {α : Type} (f : α → Option α)
    (hstep : ∀ a b, f a = some b → f b = some b) :
    ∀ l : List α, (l.filterMap f).filterMap f = l.filterMap f
  | [] => rfl
  | a :: l => by
    cases hfa : f a with
    | none => simp [List.filterMap_cons, hfa, filterMap_idem_of_step f hstep l]
    | some b =>
      simp [List.filterMap_cons, hfa, hstep a b hfa,
        filterMap_idem_of_step f hstep l]

lemma cleanAttributes_idem (tag : String) (attrs : List (String × String)) :
    cleanAttributes tag (cleanAttributes tag attrs) = cleanAttributes tag attrs :=
  filterMap_idem_of_step (cleanAttr tag) (fun _ _ h => cleanAttr_idem h) attrs

/-- The cleaned forest satisfies the strong allow-list invariant. -/
lemma cleanNodeList_allowed : ∀ ns, allowedForest (cleanNodeList ns) = true := by
  intro ns
  induction ns using cleanNodeList.induct with
  | case1 => simp [cleanNodeList, allowedForest]
  | case2 s rest ih => simp only [cleanNodeList, allowedForest]; exact ih
  | case3 tag attrs kids rest h ih =>
    rw [cleanNodeList, if_pos (by simpa using h)]
    simp only [allowedForest]
    exact ih
  | case4 tag attrs kids rest h ihk ihr =>
    rw [cleanNodeList, if_neg (by simpa using h)]
    simp only [allowedForest, Bool.and_eq_true]
    refine ⟨⟨⟨by simpa using h, ?_⟩, ihk⟩, ihr⟩
    rw [List.all_eq_true]
    intro p hp
    simp only [cleanAttributes, List.mem_filterMap] at hp
    obtain ⟨a, _, hfa⟩ := hp
    have hk := cleanAttr_kept hfa
    simp only [Bool.and_eq_true, Bool.not_eq_true]
    exact ⟨by simp [hk.2.1], hk.2.2⟩

lemma allowed_tag_ne_script {t : String} (h : ALLOWED_TAGS.contains t = true) :
    (t != "script") = true := by
  by_contra hne
  simp only [bne, Bool.not_eq_true, Bool.not_eq_false', beq_iff_eq] at hne
  subst hne
  exact absurd h (by decide)

lemma allowed_imp_noScript : ∀ ns, allowedForest ns = true →
    noScriptNoOnAttr ns = true := by
  intro ns
  induction ns using allowedForest.induct with
  | case1 => simp [noScriptNoOnAttr]
  | case2 s rest ih =>
    simp only [allowedForest, noScriptNoOnAttr]
    exact ih
  | case3 tag attrs kids rest ihk ihr =>
    simp only [allowedForest, noScriptNoOnAttr, Bool.and_eq_true,
      List.all_eq_true]
    rintro ⟨⟨⟨htag, hattrs⟩, hkids⟩, hrest⟩
    exact ⟨⟨⟨allowed_tag_ne_script htag,
      fun p hp => by simpa using ((by simpa using hattrs p hp) :
        strStartsWith (strLower p.1) "on" = false ∧ _).1⟩,
      ihk hkids⟩, ihr hrest⟩

/-- C5: the sanitized forest contains no `script` element and no attribute
whose name, case-insensitively, starts with `on`; a child with a
disallowed tag is replaced by a text node holding its text content rather
than being deleted. -/
theorem sanitize_no_script_no_on (body : List HNode) :
    noScriptNoOnAttr (sanitize body) = true
    ∧ ∀ (tag : String) (attrs : List (String × String)) (kids rest : List HNode),
        ALLOWED_TAGS.contains (strLower tag) = false →
        sanitize (HNode.elem tag attrs kids :: rest)
          = HNode.text (textContentList kids) :: sanitize rest := by
  refine ⟨allowed_imp_noScript _ (cleanNodeList_allowed body), ?_⟩
  intro tag attrs kids rest h
  simp only [sanitize]
  rw [cleanNodeList, if_pos (by rw [h]; rfl)]

/-- Witness for C5: a `script` element is stripped to its text content. -/
theorem sanitize_no_script_no_on_witness :
    sanitize [HNode.elem "script" [("onload", "x")] [HNode.text "hi"]]
      = [HNode.text "hi"]
    ∧ noScriptNoOnAttr
        (sanitize [HNode.elem "script" [("onload", "x")] [HNode.text "hi"]])
        = true := by
  constructor
  · have h := (sanitize_no_script_no_on []).2 "script" [("onload", "x")]
      [HNode.text "hi"] [] (by decide)
    rw [h]
    have ht : textContentList [HNode.text "hi"] = "hi" := by
      simp only [textContentList, textContent]
      decide
    rw [ht]
    simp [sanitize, cleanNodeList]
  · exact (sanitize_no_script_no_on
      [HNode.elem "script" [("onload", "x")] [HNode.text "hi"]]).1

/-- The cleaned forest is a fixed point of cleaning. -/
lemma cleanNodeList_idem : ∀ ns, cleanNodeList (cleanNodeList ns) = cleanNodeList ns := by
  intro ns
  induction ns using cleanNodeList.induct with
  | case1 => simp [cleanNodeList]
  | case2 s rest ih =>
    rw [cleanNodeList]
    rw [cleanNodeList, ih]
  | case3 tag attrs kids rest h ih =>
    rw [cleanNodeList, if_pos (by simpa using h)]
    rw [cleanNodeList, ih]
  | case4 tag attrs kids rest h ihk ihr =>
    rw [cleanNodeList, if_neg (by simpa using h)]
    rw [cleanNodeList, if_neg (by simpa using h), ihk, ihr,
      cleanAttributes_idem]

/-- C6: `sanitize` is idempotent. -/
theorem sanitize_idem (body : List HNode) :
    sanitize (sanitize body) = sanitize body :=
  cleanNodeList_idem body

/-- Lower-casing preserves an `on` name prefix. -/
lemma strStartsWith_lower_on {s : String} (h : strStartsWith s "on" = true) :
    strStartsWith (strLower s) "on" = true := by
  unfold strStartsWith at h ⊢
  have hdata : ("on" : String).data = ['o', 'n'] := rfl
  rw [hdata] at h ⊢
  unfold strLower
  cases hs : s.data with
  | nil => rw [hs] at h; simp [List.isPrefixOf] at h
  | cons c1 t1 =>
    cases t1 with
    | nil => rw [hs] at h; simp [List.isPrefixOf] at h
    | cons c2 t2 =>
      rw [hs] at h
      simp only [List.isPrefixOf, Bool.and_eq_true, List.isPrefixOf_nil_left,
        and_true, beq_iff_eq] at h
      obtain ⟨h1, h2⟩ := h
      subst h1
      subst h2
      simp [List.isPrefixOf]

lemma safe_of_allowed_noJs : ∀ ns, allowedForest ns = true →
    noJsAttrValues ns = true → isSafeHTML ns = true := by
  intro ns
  induction ns using allowedForest.induct with
  | case1 => simp [isSafeHTML]
  | case2 s rest ih =>
    simp only [allowedForest, noJsAttrValues, isSafeHTML]
    exact ih
  | case3 tag attrs kids rest ihk ihr =>
    simp only [allowedForest, noJsAttrValues, isSafeHTML, Bool.and_eq_true,
      List.all_eq_true]
    rintro ⟨⟨⟨htag, hattrs⟩, hkids⟩, hrest⟩ ⟨⟨hjs, hjkids⟩, hjrest⟩
    refine ⟨⟨⟨allowed_tag_ne_script htag, ?_⟩, ihk hkids hjkids⟩, ihr hrest hjrest⟩
    unfold safeAttrs
    rw [List.all_eq_true]
    intro p hp
    have h1 := hattrs p hp
    have h2 := hjs p hp
    simp only [Bool.and_eq_true, Bool.not_eq_true'] at h1 h2 ⊢
    refine ⟨?_, h2⟩
    by_contra hstart
    simp only [Bool.not_eq_false] at hstart
    rw [strStartsWith_lower_on hstart] at h1
    exact absurd h1.1 (by simp)

/-- Counterexample to C7 as stated: `sanitize` keeps a `title` attribute
whose value contains `javascript:` (only `href`/`src` values are
protocol-checked), and `isSafeHTML` rejects any attribute value containing
`javascript:`, so `isSafeHTML (sanitize x)` is false for this input. -/
theorem isSafeHTML_sanitize_counterexample :
    sanitize [HNode.elem "a" [("title", "javascript:x")] [HNode.text "y"]]
      = [HNode.elem "a" [("title", "javascript:x")] [HNode.text "y"]]
    ∧ isSafeHTML (sanitize
        [HNode.elem "a" [("title", "javascript:x")] [HNode.text "y"]]) = false := by
  constructor
  · simp [sanitize, cleanNodeList, cleanAttributes, cleanAttr, strLower,
      strStartsWith, strTrim, ALLOWED_TAGS, ALLOWED_ATTRIBUTES, sanitizeStyle]
  · simp [sanitize, cleanNodeList, cleanAttributes, cleanAttr, isSafeHTML,
      safeAttrs, strLower, strStartsWith, strTrim, strIncludes, hasSubList,
      ALLOWED_TAGS, ALLOWED_ATTRIBUTES, sanitizeStyle]

/-- C7, amended: `isSafeHTML (sanitize x)` is true whenever the sanitized
forest retains no attribute value containing `javascript:`; `sanitize` can
retain such values (in attributes that are neither `href`, `src` nor
`style`, or not at the start of an `href`/`src` value), and `isSafeHTML`
then reports the result unsafe. -/
theorem isSafeHTML_sanitize (body : List HNode)
    (h : noJsAttrValues (sanitize body) = true) :
    isSafeHTML (sanitize body) = true :=
  safe_of_allowed_noJs _ (cleanNodeList_allowed body) h

/-- Witness for the amended C7 on a concrete anchor element. -/
theorem isSafeHTML_sanitize_witness :
    noJsAttrValues (sanitize
      [HNode.elem "a" [("href", "https://x")] [HNode.text "y"]]) = true
    ∧ isSafeHTML (sanitize
      [HNode.elem "a" [("href", "https://x")] [HNode.text "y"]]) = true :=
  ⟨by
    simp [sanitize, cleanNodeList, cleanAttributes, cleanAttr, noJsAttrValues,
      strLower, strStartsWith, strTrim, strIncludes, hasSubList,
      ALLOWED_TAGS, ALLOWED_ATTRIBUTES, sanitizeStyle]
    decide,
   isSafeHTML_sanitize [HNode.elem "a" [("href", "https://x")] [HNode.text "y"]]
    (by
      simp [sanitize, cleanNodeList, cleanAttributes, cleanAttr, noJsAttrValues,
        strLower, strStartsWith, strTrim, strIncludes, hasSubList,
        ALLOWED_TAGS, ALLOWED_ATTRIBUTES, sanitizeStyle]
      decide)⟩

end HTMLSanitizer

end ShortcutPaste
